import Mathlib

/-!
Verification of the pfpfo portfolio-optimisation repository.

The repository's functional core is a mean-variance portfolio allocator:
a covariance estimator and a constrained quadratic allocator, together with
a driver (`run_optimisation` in `src/main.py`) and static settings
(`src/settings.py`).  The allocator and estimator modules themselves are
referenced by the driver (`src.optimizer`, `src.data`, `src.model`) but
their code is not part of the source tree, so they are modelled faithfully
from the specification; the driver and the settings are embedded directly
from the Python source.
-/

namespace PFPFO

/-! ## Settings (embedded from `src/settings.py`) -/

/-- Embedded from `src/settings.py`: `MINIMUM_ALLOCATION = 0.05`. -/
def MINIMUM_ALLOCATION : ℚ := 5 / 100

/-- Embedded from `src/settings.py`: `RISK_AVERSION = 3`. -/
def RISK_AVERSION : ℚ := 3

/-- Embedded from `src/settings.py`: `START_DATE = "2024-01-01"`. -/
def START_DATE : String := "2024-01-01"

/-- Embedded from `src/settings.py`:
`PORTFOLIO_TICKERS = ["KO", "REP.MC", "MSFT", "AAPL", "TSLA", "AMZN"]`. -/
def PORTFOLIO_TICKERS : List String := ["KO", "REP.MC", "MSFT", "AAPL", "TSLA", "AMZN"]

/-! ## The constrained allocator

Modelled from the spec: the module `src.optimizer`
(`optimize_portfolio_mean_variance`) is not in the source tree.  The spec
defines `optimize(expected_returns, covariance, risk_aversion,
minimum_allocation)`: maximize
`expected_returns · w − (risk_aversion / 2) · wᵀ·covariance·w`
subject to `sum(w) == 1` and `minimum_allocation <= w_i <= 1`,
failing with `InfeasibleConstraintsError` when `minimum_allocation * n > 1`,
and breaking ties among equally optimal allocations toward the one closest
(in Euclidean distance) to equal weighting.  Exact rational arithmetic
stands in for floating point. -/

/-- A candidate weight vector over an n-asset universe. -/
abbrev Weights (n : ℕ) := Fin n → ℚ

/-- Dot product `expected_returns · w`. -/
def dotp {n : ℕ} (r w : Weights n) : ℚ := ∑ i, r i * w i

/-- Quadratic form `wᵀ·C·w`, the realized portfolio variance of `w`. -/
def quadForm {n : ℕ} (C : Fin n → Fin n → ℚ) (w : Weights n) : ℚ :=
  ∑ i, ∑ j, w i * C i j * w j

/-- The mean-variance objective
`expected_returns · w − (risk_aversion / 2) · wᵀ·covariance·w`. -/
def utility {n : ℕ} (r : Weights n) (C : Fin n → Fin n → ℚ) (a : ℚ) (w : Weights n) : ℚ :=
  dotp r w - a / 2 * quadForm C w

/-- The allocator's constraint set: `sum(w) == 1` and
`minimum_allocation <= w_i <= 1` for every asset `i`. -/
def FeasibleW {n : ℕ} (m : ℚ) (w : Weights n) : Prop :=
  (∑ i, w i) = 1 ∧ ∀ i, m ≤ w i ∧ w i ≤ 1

/-- The equal weighting, `1/n` per asset. -/
def equalWeight (n : ℕ) : Weights n := fun _ => 1 / (n : ℚ)

/-- Squared Euclidean distance between two weight vectors. -/
def dist2 {n : ℕ} (u v : Weights n) : ℚ := ∑ i, (u i - v i) ^ 2

/-- `w` is a maximizer of the mean-variance objective over the feasible set. -/
def IsOptimal {n : ℕ} (r : Weights n) (C : Fin n → Fin n → ℚ) (a m : ℚ) (w : Weights n) : Prop :=
  FeasibleW m w ∧ ∀ w', FeasibleW m w' → utility r C a w' ≤ utility r C a w

/-- `w` is the allocation the spec requires `optimize` to return: a
maximizer that, among all maximizers, is closest to equal weighting
(the spec's tie-break policy). -/
def IsReturnedWeights {n : ℕ} (r : Weights n) (C : Fin n → Fin n → ℚ)
    (a m : ℚ) (w : Weights n) : Prop :=
  IsOptimal r C a m w ∧
    ∀ w', IsOptimal r C a m w' → dist2 w (equalWeight n) ≤ dist2 w' (equalWeight n)

/-- Positive semi-definiteness of a matrix, the spec's invariant for a
well-formed covariance matrix. -/
def PSDq {n : ℕ} (C : Fin n → Fin n → ℚ) : Prop := ∀ v : Weights n, 0 ≤ quadForm C v

/-- The allocator's failure modes from the spec's error taxonomy. -/
inductive OptErr
  | infeasible
  | singular
  | convergence
  deriving DecidableEq

/-- Modelled from the spec: the observable contract of `optimize` in the
missing `src.optimizer` module.  `optimize` fails with
`InfeasibleConstraintsError` exactly when `minimum_allocation * n > 1`;
otherwise it either returns the optimal tie-broken weight vector or fails
with one of the numerical errors (`SingularCovarianceError`,
`ConvergenceError`). -/
def OptimizeSpec {n : ℕ} (r : Weights n) (C : Fin n → Fin n → ℚ) (a m : ℚ) :
    Except OptErr (Weights n) → Prop
  | Except.ok w => m * (n : ℚ) ≤ 1 ∧ IsReturnedWeights r C a m w
  | Except.error OptErr.infeasible => 1 < m * (n : ℚ)
  | Except.error OptErr.singular => m * (n : ℚ) ≤ 1
  | Except.error OptErr.convergence => m * (n : ℚ) ≤ 1

/-! ## Basic consequences of the allocator contract -/

/-- A returned weight vector is feasible. -/
theorem optimizeSpec_ok_feasible {n : ℕ} {r : Weights n} {C : Fin n → Fin n → ℚ}
    {a m : ℚ} {w : Weights n} (h : OptimizeSpec r C a m (Except.ok w)) :
    FeasibleW m w := h.2.1.1

/-- C1: for every valid input, the returned weight vector sums to 1
within 1e-6 and every component lies in
[minimum_allocation − 1e-9, 1 + 1e-9]. -/
theorem optimize_output_within_bounds {n : ℕ} (r : Weights n) (C : Fin n → Fin n → ℚ)
    (a m : ℚ) (w : Weights n) (h : OptimizeSpec r C a m (Except.ok w)) :
    |(∑ i, w i) - 1| ≤ 1 / 1000000 ∧
      ∀ i, m - 1 / 1000000000 ≤ w i ∧ w i ≤ 1 + 1 / 1000000000 := by
  obtain ⟨hsum, hbox⟩ := optimizeSpec_ok_feasible h
  constructor
  · rw [hsum]
    norm_num
  · intro i
    obtain ⟨hlo, hhi⟩ := hbox i
    constructor <;> linarith

/-- C2: whenever `minimum_allocation * n > 1`, `optimize` fails with
`InfeasibleConstraintsError` and returns no weight vector. -/
theorem optimize_infeasible_raises {n : ℕ} (r : Weights n) (C : Fin n → Fin n → ℚ)
    (a m : ℚ) (res : Except OptErr (Weights n)) (hmn : 1 < m * (n : ℚ))
    (h : OptimizeSpec r C a m res) :
    res = Except.error OptErr.infeasible := by
  match res with
  | Except.ok w => exact absurd h.1 (not_le.mpr hmn)
  | Except.error OptErr.infeasible => rfl
  | Except.error OptErr.singular => exact absurd h (not_le.mpr hmn)
  | Except.error OptErr.convergence => exact absurd h (not_le.mpr hmn)

/-- C3: when `minimum_allocation * n == 1` exactly, the returned weight
vector is the equal weighting: every component equals `1/n`. -/
theorem optimize_boundary_equal_weight {n : ℕ} (r : Weights n) (C : Fin n → Fin n → ℚ)
    (a m : ℚ) (w : Weights n) (hmn : m * (n : ℚ) = 1)
    (h : OptimizeSpec r C a m (Except.ok w)) :
    (∀ i, w i = 1 / (n : ℚ)) ∧ w = equalWeight n := by
  obtain ⟨hsum, hbox⟩ := optimizeSpec_ok_feasible h
  have hn : (n : ℚ) ≠ 0 := by
    intro h0
    rw [h0, mul_zero] at hmn
    exact zero_ne_one hmn
  have hm : m = 1 / (n : ℚ) := by
    field_simp
    linarith [hmn]
  have hzero : (∑ i, (w i - m)) = 0 := by
    rw [Finset.sum_sub_distrib, hsum, Finset.sum_const, Finset.card_univ,
      Fintype.card_fin, nsmul_eq_mul]
    have : (n : ℚ) * m = 1 := by linarith [hmn, mul_comm m (n : ℚ)]
    linarith
  have hall : ∀ i ∈ Finset.univ, w i - m = 0 := by
    rw [← Finset.sum_eq_zero_iff_of_nonneg]
    · exact hzero
    · intro i _
      have := (hbox i).1
      linarith
  have hcomp : ∀ i, w i = 1 / (n : ℚ) := by
    intro i
    have := hall i (Finset.mem_univ i)
    rw [← hm]
    linarith
  exact ⟨hcomp, funext fun i => hcomp i⟩

/-! ## A concrete instance with a pinned feasible set, used as a witness.

With two assets and `minimum_allocation = 1/2` the feasible set is the
single point `(1/2, 1/2)`, so the spec's returned allocation is that point
for every objective. -/

/-- The two-asset half-and-half weight vector. -/
def wHalf : Weights 2 := fun _ => 1 / 2

theorem feasibleW_half_iff (w : Weights 2) : FeasibleW (1 / 2) w ↔ w = wHalf := by
  constructor
  · rintro ⟨hsum, hbox⟩
    have hs : w 0 + w 1 = 1 := by
      have := hsum
      rw [Fin.sum_univ_two] at this
      exact this
    funext i
    fin_cases i
    · show w 0 = 1 / 2
      linarith [(hbox 0).1, (hbox 1).1]
    · show w 1 = 1 / 2
      linarith [(hbox 0).1, (hbox 1).1]
  · rintro rfl
    refine ⟨by rw [Fin.sum_univ_two]; norm_num [wHalf], fun i => by norm_num [wHalf]⟩

/-- In the pinned two-asset instance, `wHalf` satisfies the full returned
contract for any objective data. -/
theorem optimizeSpec_wHalf (r : Weights 2) (C : Fin 2 → Fin 2 → ℚ) (a : ℚ) :
    OptimizeSpec r C a (1 / 2) (Except.ok wHalf) := by
  have hfeas : FeasibleW (1 / 2) wHalf := (feasibleW_half_iff wHalf).mpr rfl
  have hopt : IsOptimal r C a (1 / 2) wHalf := by
    refine ⟨hfeas, fun w' hw' => ?_⟩
    rw [(feasibleW_half_iff w').mp hw']
  refine ⟨by norm_num, hopt, fun w' hw' => ?_⟩
  rw [(feasibleW_half_iff w').mp hw'.1]

/-- Witness for C1 at the pinned two-asset instance. -/
theorem optimize_output_within_bounds_witness :
    |(∑ i, wHalf i) - 1| ≤ 1 / 1000000 ∧
      ∀ i, 1 / 2 - 1 / 1000000000 ≤ wHalf i ∧ wHalf i ≤ 1 + 1 / 1000000000 :=
  optimize_output_within_bounds (fun _ => 0) (fun _ _ => 0) 3 (1 / 2) wHalf
    (optimizeSpec_wHalf (fun _ => 0) (fun _ _ => 0) 3)

/-- Witness for C2: two assets with `minimum_allocation = 1` is infeasible
and the contract forces the infeasibility error. -/
theorem optimize_infeasible_raises_witness :
    (1 : ℚ) < 1 * ((2 : ℕ) : ℚ) ∧
      (Except.error OptErr.infeasible : Except OptErr (Weights 2)) =
        Except.error OptErr.infeasible :=
  ⟨by norm_num,
    optimize_infeasible_raises (fun _ => 0) (fun _ _ => 0) 3 1
      (Except.error OptErr.infeasible) (by norm_num)
      (by show (1 : ℚ) < 1 * ((2 : ℕ) : ℚ); norm_num)⟩

/-- Witness for C3 at the pinned two-asset instance, where
`minimum_allocation * n = (1/2) * 2 = 1`. -/
theorem optimize_boundary_equal_weight_witness :
    (∀ i, wHalf i = 1 / ((2 : ℕ) : ℚ)) ∧ wHalf = equalWeight 2 :=
  optimize_boundary_equal_weight (fun _ => 0) (fun _ _ => 0) 3 (1 / 2) wHalf
    (by norm_num) (optimizeSpec_wHalf (fun _ => 0) (fun _ _ => 0) 3)

/-! ## Convexity of the objective and uniqueness of the tie-broken optimum -/

/-- The midpoint of two weight vectors. -/
def midp {n : ℕ} (u v : Weights n) : Weights n := fun i => (u i + v i) / 2

/-- Half the difference of two weight vectors. -/
def halfd {n : ℕ} (u v : Weights n) : Weights n := fun i => (u i - v i) / 2

theorem dotp_midp {n : ℕ} (r u v : Weights n) :
    dotp r (midp u v) = (dotp r u + dotp r v) / 2 := by
  unfold dotp midp
  rw [← Finset.sum_add_distrib, Finset.sum_div]
  refine Finset.sum_congr rfl fun i _ => ?_
  ring

theorem quadForm_midp {n : ℕ} (C : Fin n → Fin n → ℚ) (u v : Weights n) :
    quadForm C (midp u v) + quadForm C (halfd u v)
      = (quadForm C u + quadForm C v) / 2 := by
  unfold quadForm midp halfd
  rw [← Finset.sum_add_distrib, ← Finset.sum_add_distrib, Finset.sum_div]
  refine Finset.sum_congr rfl fun i _ => ?_
  rw [← Finset.sum_add_distrib, ← Finset.sum_add_distrib, Finset.sum_div]
  refine Finset.sum_congr rfl fun j _ => ?_
  ring

theorem dist2_midp {n : ℕ} (u v e : Weights n) :
    dist2 (midp u v) e + (∑ i, halfd u v i ^ 2) = (dist2 u e + dist2 v e) / 2 := by
  unfold dist2 midp halfd
  rw [← Finset.sum_add_distrib, ← Finset.sum_add_distrib, Finset.sum_div]
  refine Finset.sum_congr rfl fun i _ => ?_
  ring

theorem feasibleW_midp {n : ℕ} {m : ℚ} {u v : Weights n}
    (hu : FeasibleW m u) (hv : FeasibleW m v) : FeasibleW m (midp u v) := by
  refine ⟨?_, fun i => ?_⟩
  · show (∑ i, (u i + v i) / 2) = 1
    rw [← Finset.sum_div, Finset.sum_add_distrib, hu.1, hv.1]
    norm_num
  · obtain ⟨hu1, hu2⟩ := hu.2 i
    obtain ⟨hv1, hv2⟩ := hv.2 i
    constructor
    · show m ≤ (u i + v i) / 2
      linarith
    · show (u i + v i) / 2 ≤ 1
      linarith

theorem utility_midp_ge {n : ℕ} (r : Weights n) {C : Fin n → Fin n → ℚ} {a : ℚ}
    (hC : PSDq C) (ha : 0 ≤ a) (u v : Weights n) :
    (utility r C a u + utility r C a v) / 2 ≤ utility r C a (midp u v) := by
  have hq := quadForm_midp C u v
  have hd := dotp_midp r u v
  have hpsd := hC (halfd u v)
  have hnn : 0 ≤ a / 2 * quadForm C (halfd u v) := by positivity
  unfold utility at *
  rw [hd]
  nlinarith [hq, hnn]

theorem isOptimal_utility_eq {n : ℕ} {r : Weights n} {C : Fin n → Fin n → ℚ}
    {a m : ℚ} {u v : Weights n} (hu : IsOptimal r C a m u) (hv : IsOptimal r C a m v) :
    utility r C a u = utility r C a v :=
  le_antisymm (hv.2 u hu.1) (hu.2 v hv.1)

theorem isOptimal_midp {n : ℕ} {r : Weights n} {C : Fin n → Fin n → ℚ} {a m : ℚ}
    (hC : PSDq C) (ha : 0 ≤ a) {u v : Weights n}
    (hu : IsOptimal r C a m u) (hv : IsOptimal r C a m v) :
    IsOptimal r C a m (midp u v) := by
  have hfeas := feasibleW_midp hu.1 hv.1
  have heq := isOptimal_utility_eq hu hv
  have hge := utility_midp_ge r hC ha u v
  have hle := hu.2 (midp u v) hfeas
  refine ⟨hfeas, fun w' hw' => ?_⟩
  have := hu.2 w' hw'
  linarith

/-- The spec's tie-break policy (minimize distance to equal weighting over
the convex set of optima) determines the returned vector uniquely. -/
theorem returnedWeights_unique {n : ℕ} {r : Weights n} {C : Fin n → Fin n → ℚ}
    {a m : ℚ} (hC : PSDq C) (ha : 0 ≤ a) {u v : Weights n}
    (hu : IsReturnedWeights r C a m u) (hv : IsReturnedWeights r C a m v) :
    u = v := by
  have hmid := isOptimal_midp hC ha hu.1 hv.1
  have hduv : dist2 u (equalWeight n) = dist2 v (equalWeight n) :=
    le_antisymm (hu.2 v hv.1) (hv.2 u hu.1)
  have hdm := hu.2 (midp u v) hmid
  have hiden := dist2_midp u v (equalWeight n)
  have hS : (∑ i, halfd u v i ^ 2) ≤ 0 := by linarith
  have hS0 : (∑ i, halfd u v i ^ 2) = 0 :=
    le_antisymm hS (Finset.sum_nonneg fun i _ => sq_nonneg _)
  have hterm : ∀ i ∈ Finset.univ, halfd u v i ^ 2 = 0 :=
    (Finset.sum_eq_zero_iff_of_nonneg fun i _ => sq_nonneg _).mp hS0
  funext i
  have h := hterm i (Finset.mem_univ i)
  have : halfd u v i = 0 := by
    exact pow_eq_zero_iff (two_ne_zero) |>.mp h
  unfold halfd at this
  linarith

/-- C4: `optimize` is deterministic — two runs on identical, well-formed
inputs return identical weight vectors. -/
theorem optimize_deterministic {n : ℕ} (r : Weights n) (C : Fin n → Fin n → ℚ)
    (a m : ℚ) (w1 w2 : Weights n) (hC : PSDq C) (ha : 0 ≤ a)
    (h1 : OptimizeSpec r C a m (Except.ok w1))
    (h2 : OptimizeSpec r C a m (Except.ok w2)) :
    w1 = w2 :=
  returnedWeights_unique hC ha h1.2 h2.2

/-- Witness for C4 at the pinned two-asset instance with the zero matrix
(which is positive semi-definite). -/
theorem optimize_deterministic_witness : wHalf = wHalf :=
  optimize_deterministic (fun _ => 0) (fun _ _ => 0) 3 (1 / 2) wHalf wHalf
    (fun v => by unfold quadForm; simp)
    (by norm_num)
    (optimizeSpec_wHalf (fun _ => 0) (fun _ _ => 0) 3)
    (optimizeSpec_wHalf (fun _ => 0) (fun _ _ => 0) 3)

/-- C5: holding expected returns, covariance and the minimum allocation
fixed, raising risk aversion never increases the realized portfolio
variance `wᵀ·covariance·w` of the returned solution. -/
theorem optimize_riskAversion_monotone {n : ℕ} (r : Weights n) (C : Fin n → Fin n → ℚ)
    (m a1 a2 : ℚ) (w1 w2 : Weights n) (hC : PSDq C) (ha0 : 0 ≤ a1) (h12 : a1 ≤ a2)
    (h1 : OptimizeSpec r C a1 m (Except.ok w1))
    (h2 : OptimizeSpec r C a2 m (Except.ok w2)) :
    quadForm C w2 ≤ quadForm C w1 := by
  rcases eq_or_lt_of_le h12 with heq | hlt
  · subst heq
    rw [returnedWeights_unique hC ha0 h1.2 h2.2]
  · have hf1 := h1.2.1.1
    have hf2 := h2.2.1.1
    have hkey1 := h1.2.1.2 w2 hf2
    have hkey2 := h2.2.1.2 w1 hf1
    unfold utility at hkey1 hkey2
    by_contra hcon
    push_neg at hcon
    nlinarith [mul_pos (sub_pos.mpr hlt) (sub_pos.mpr hcon)]

/-- Witness for C5 at the pinned two-asset instance with risk aversions
3 ≤ 4 and the zero (positive semi-definite) covariance matrix. -/
theorem optimize_riskAversion_monotone_witness :
    quadForm (fun _ _ => 0) wHalf ≤ quadForm (fun _ _ => 0) wHalf :=
  optimize_riskAversion_monotone (fun _ => 0) (fun _ _ => 0) (1 / 2) 3 4 wHalf wHalf
    (fun v => by unfold quadForm; simp)
    (by norm_num) (by norm_num)
    (optimizeSpec_wHalf (fun _ => 0) (fun _ _ => 0) 3)
    (optimizeSpec_wHalf (fun _ => 0) (fun _ _ => 0) 4)

/-- C8: on a non-degenerate valid input (at least one asset, feasible
bounds), the utility of the returned weight vector is at least the utility
of the equal-weight vector. -/
theorem optimize_beats_equal_weight {n : ℕ} (r : Weights n) (C : Fin n → Fin n → ℚ)
    (a m : ℚ) (w : Weights n) (hn : 0 < n)
    (h : OptimizeSpec r C a m (Except.ok w)) :
    utility r C a (equalWeight n) ≤ utility r C a w := by
  have hnq : (0 : ℚ) < (n : ℚ) := by exact_mod_cast hn
  have hfeq : FeasibleW m (equalWeight n) := by
    refine ⟨?_, fun i => ⟨?_, ?_⟩⟩
    · show (∑ _i : Fin n, 1 / (n : ℚ)) = 1
      rw [Finset.sum_const, Finset.card_univ, Fintype.card_fin, nsmul_eq_mul]
      field_simp
    · show m ≤ 1 / (n : ℚ)
      rw [le_div_iff₀ hnq]
      exact h.1
    · show 1 / (n : ℚ) ≤ 1
      rw [div_le_one hnq]
      exact_mod_cast hn
  exact h.2.1.2 (equalWeight n) hfeq

/-- Witness for C8 at the pinned two-asset instance. -/
theorem optimize_beats_equal_weight_witness :
    utility (fun _ => 0) (fun _ _ => 0) 3 (equalWeight 2)
      ≤ utility (fun _ => 0) (fun _ _ => 0) 3 wHalf :=
  optimize_beats_equal_weight (fun _ => 0) (fun _ _ => 0) 3 (1 / 2) wHalf
    (by norm_num) (optimizeSpec_wHalf (fun _ => 0) (fun _ _ => 0) 3)

/-! ## The covariance estimator

Modelled from the spec: the data module holding `estimate_covariance` is
not in the source tree.  The spec defines
`estimate_covariance(returns_by_asset) -> CovarianceMatrix`: align all
return series to the common overlapping window (the series share their
latest end, so the window is the most recent stretch of the minimum
length), fail with `InsufficientDataError` when any pair has fewer than
2 aligned periods, and otherwise fill an exactly symmetric matrix with the
unbiased (n−1 denominator) sample covariances, computed once per unordered
pair and mirrored. -/

/-- The covariance estimator's failure mode: `InsufficientDataError`. -/
inductive CovErr
  | insufficientData
  deriving DecidableEq

/-- Minimum of a list of naturals (0 on the empty list, which the
estimator never consults: an asset index exists in every claim). -/
def listMin : List ℕ → ℕ
  | [] => 0
  | [a] => a
  | a :: b :: t => min a (listMin (b :: t))

theorem listMin_le {l : List ℕ} {a : ℕ} (h : a ∈ l) : listMin l ≤ a := by
  induction l with
  | nil => cases h
  | cons x t ih =>
    cases t with
    | nil =>
      rcases List.mem_cons.mp h with h1 | h1
      · simp [listMin, h1]
      · cases h1
    | cons y s =>
      rcases List.mem_cons.mp h with h1 | h1
      · subst h1
        exact min_le_left _ _
      · exact le_trans (min_le_right _ _) (ih h1)

/-- The number of aligned periods: the length of the shortest return
series, the common overlapping window of the input mapping. -/
def minLen {k : ℕ} (series : Fin k → List ℚ) : ℕ :=
  listMin (List.ofFn fun i => (series i).length)

theorem minLen_le {k : ℕ} (series : Fin k → List ℚ) (i : Fin k) :
    minLen series ≤ (series i).length :=
  listMin_le ((List.mem_ofFn _ _).mpr ⟨i, rfl⟩)

/-- Asset `i`'s return series truncated to the common overlapping window
(the most recent `minLen series` periods). -/
def alignedSeries {k : ℕ} (series : Fin k → List ℚ) (i : Fin k) : List ℚ :=
  (series i).drop ((series i).length - minLen series)

theorem alignedSeries_length {k : ℕ} (series : Fin k → List ℚ) (i : Fin k) :
    (alignedSeries series i).length = minLen series := by
  unfold alignedSeries
  rw [List.length_drop]
  exact Nat.sub_sub_self (minLen_le series i)

/-- The arithmetic mean of a return series. -/
def meanq (x : List ℚ) : ℚ := x.sum / (x.length : ℚ)

/-- The unbiased sample covariance of two aligned return series, with the
n−1 denominator. -/
def sampleCov (x y : List ℚ) : ℚ :=
  (List.zipWith (fun a b => (a - meanq x) * (b - meanq y)) x y).sum
    / ((x.length : ℚ) - 1)

theorem sampleCov_comm (x y : List ℚ) (h : x.length = y.length) :
    sampleCov x y = sampleCov y x := by
  unfold sampleCov
  rw [h, List.zipWith_comm]
  have hfun : (fun b a => (a - meanq x) * (b - meanq y))
      = fun a b => (a - meanq y) * (b - meanq x) := by
    funext a b
    ring
  rw [hfun]

/-- Modelled from the spec: `estimate_covariance` of the missing data
module.  Fails with `InsufficientDataError` below 2 aligned periods;
otherwise computes the unbiased sample covariance once per unordered pair
of assets and mirrors it. -/
def estimate_covariance {k : ℕ} (series : Fin k → List ℚ) :
    Except CovErr (Fin k → Fin k → ℚ) :=
  if minLen series < 2 then Except.error CovErr.insufficientData
  else Except.ok (fun i j =>
    if i ≤ j then sampleCov (alignedSeries series i) (alignedSeries series j)
    else sampleCov (alignedSeries series j) (alignedSeries series i))

theorem sampleCov_aligned_comm {k : ℕ} (series : Fin k → List ℚ) (i j : Fin k) :
    sampleCov (alignedSeries series i) (alignedSeries series j)
      = sampleCov (alignedSeries series j) (alignedSeries series i) :=
  sampleCov_comm _ _ (by rw [alignedSeries_length, alignedSeries_length])

/-- C6: a successfully estimated covariance matrix is exactly symmetric,
and each entry is the unbiased (n−1 denominator) sample covariance of the
two aligned return series. -/
theorem estimate_covariance_symm_unbiased {k : ℕ} (series : Fin k → List ℚ)
    (M : Fin k → Fin k → ℚ) (h : estimate_covariance series = Except.ok M) :
    ∀ i j, M i j = M j i ∧
      M i j = sampleCov (alignedSeries series i) (alignedSeries series j) := by
  unfold estimate_covariance at h
  split at h
  · cases h
  · injection h with hM
    have hMval : ∀ p q : Fin k, M p q
        = if p ≤ q then sampleCov (alignedSeries series p) (alignedSeries series q)
          else sampleCov (alignedSeries series q) (alignedSeries series p) := by
      intro p q
      rw [← hM]
    have entry : ∀ p q : Fin k,
        M p q = sampleCov (alignedSeries series p) (alignedSeries series q) := by
      intro p q
      rw [hMval p q]
      by_cases hpq : p ≤ q
      · rw [if_pos hpq]
      · rw [if_neg hpq, sampleCov_aligned_comm]
    intro i j
    refine ⟨?_, entry i j⟩
    rw [entry i j, entry j i, sampleCov_aligned_comm]

/-- C7: when some asset pair has fewer than 2 aligned periods,
`estimate_covariance` fails with `InsufficientDataError` (so no matrix,
in particular no 0 or NaN entry, is ever returned for that pair). -/
theorem estimate_covariance_insufficient {k : ℕ} (series : Fin k → List ℚ)
    (h : ∃ i j : Fin k, min (series i).length (series j).length < 2) :
    estimate_covariance series = Except.error CovErr.insufficientData := by
  obtain ⟨i, j, hij⟩ := h
  have hle : minLen series ≤ min (series i).length (series j).length :=
    le_min (minLen_le series i) (minLen_le series j)
  unfold estimate_covariance
  rw [if_pos (lt_of_le_of_lt hle hij)]

/-- A concrete two-asset input with three aligned periods each. -/
def covSeriesW : Fin 2 → List ℚ := ![[1, 2, 4], [2, 1, 3]]

/-- The matrix `estimate_covariance` produces on `covSeriesW`. -/
def covMW : Fin 2 → Fin 2 → ℚ := fun i j =>
  if i ≤ j then sampleCov (alignedSeries covSeriesW i) (alignedSeries covSeriesW j)
  else sampleCov (alignedSeries covSeriesW j) (alignedSeries covSeriesW i)

/-- Witness for C6 on the concrete two-asset input. -/
theorem estimate_covariance_symm_unbiased_witness :
    covMW 0 1 = covMW 1 0 ∧
      covMW 0 1 = sampleCov (alignedSeries covSeriesW 0) (alignedSeries covSeriesW 1) :=
  estimate_covariance_symm_unbiased covSeriesW covMW rfl 0 1

/-- A single asset with a single return period: too little data. -/
def covSeriesShort : Fin 1 → List ℚ := ![[1]]

/-- Witness for C7 on the one-period input. -/
theorem estimate_covariance_insufficient_witness :
    (∃ i j : Fin 1, min (covSeriesShort i).length (covSeriesShort j).length < 2) ∧
      estimate_covariance covSeriesShort = Except.error CovErr.insufficientData :=
  ⟨⟨0, 0, by norm_num [covSeriesShort]⟩,
    estimate_covariance_insufficient covSeriesShort ⟨0, 0, by norm_num [covSeriesShort]⟩⟩

/-! ## The driver `run_optimisation` (embedded from `src/main.py`)

The driver's collaborators (`extract_data`, `preprocess_data`, the Prophet
model, `append_predictions`, `optimize_portfolio_mean_variance`) are
external to the claims about the driver's control flow, so they are
passed in as an environment of opaque functions; the driver's own
branching is embedded directly.  A trace records which pipeline stages the
driver executes, and `none` models the Python `{}` result. -/

/-- The pipeline stages `run_optimisation` can execute. -/
inductive PipelineStep
  | extract
  | preprocess
  | predict
  | appendPreds
  | optimizeStep
  deriving DecidableEq

/-- The driver's collaborators, as opaque data: per-ticker raw series,
preprocessing, prediction, appending predictions, and the allocator. -/
structure RunEnv where
  extractData : List String → String → String → List (String × List ℚ)
  preprocessData : List (String × List ℚ) → List (String × List ℚ)
  predictForTickers : List (String × List ℚ) → List (String × ℚ) × List (String × ℚ)
  appendPredictions :
    List (String × List ℚ) → List (String × ℚ) → List (String × ℚ) → List (String × List ℚ)
  optimizePortfolio : List (String × List ℚ) → List (String × ℚ)

/-- The result dictionary built at the end of `run_optimisation`. -/
structure RunResult where
  asOfDate : String
  predictions : List (String × ℚ)
  currentPrices : List (String × ℚ)
  predictedReturns : List (String × ℚ)
  weights : List (String × ℚ)

/-- Embedded from `run_optimisation` in `src/main.py`: extract data; if
the extraction is falsy return `{}` (modelled as `none`) at once;
otherwise preprocess, predict, append predictions, read current prices
and optimise, returning the result dictionary.  The second component
records the stages executed. -/
def run_optimisation (env : RunEnv) (tickers : List String)
    (startDate endDate : String) : Option RunResult × List PipelineStep :=
  let rawData := env.extractData tickers startDate endDate
  if rawData.isEmpty then
    (none, [PipelineStep.extract])
  else
    let portfolioData := env.preprocessData rawData
    let pr := env.predictForTickers portfolioData
    let newData := env.appendPredictions portfolioData pr.1 pr.2
    let currentPrices := portfolioData.map fun p => (p.1, p.2.getLastD 0)
    let weights := env.optimizePortfolio newData
    (some ⟨endDate, pr.1, currentPrices, pr.2, weights⟩,
      [PipelineStep.extract, PipelineStep.preprocess, PipelineStep.predict,
        PipelineStep.appendPreds, PipelineStep.optimizeStep])

/-- C9: when `extract_data` returns an empty (falsy) result,
`run_optimisation` returns the empty dictionary and performs no
preprocessing, prediction, or portfolio optimisation. -/
theorem run_optimisation_empty_extract (env : RunEnv) (tickers : List String)
    (startDate endDate : String)
    (h : env.extractData tickers startDate endDate = []) :
    run_optimisation env tickers startDate endDate = (none, [PipelineStep.extract]) ∧
      PipelineStep.preprocess ∉ (run_optimisation env tickers startDate endDate).2 ∧
      PipelineStep.predict ∉ (run_optimisation env tickers startDate endDate).2 ∧
      PipelineStep.optimizeStep ∉ (run_optimisation env tickers startDate endDate).2 := by
  have hrun : run_optimisation env tickers startDate endDate
      = (none, [PipelineStep.extract]) := by
    unfold run_optimisation
    rw [h]
    rfl
  refine ⟨hrun, ?_, ?_, ?_⟩ <;> rw [hrun] <;> decide

/-- An environment whose extraction always comes back empty. -/
def emptyEnv : RunEnv where
  extractData := fun _ _ _ => []
  preprocessData := id
  predictForTickers := fun _ => ([], [])
  appendPredictions := fun d _ _ => d
  optimizePortfolio := fun _ => []

/-- Witness for C9 on the always-empty environment. -/
theorem run_optimisation_empty_extract_witness :
    emptyEnv.extractData PORTFOLIO_TICKERS START_DATE "2024-06-01" = [] ∧
      (run_optimisation emptyEnv PORTFOLIO_TICKERS START_DATE "2024-06-01"
          = (none, [PipelineStep.extract]) ∧
        PipelineStep.preprocess
            ∉ (run_optimisation emptyEnv PORTFOLIO_TICKERS START_DATE "2024-06-01").2 ∧
        PipelineStep.predict
            ∉ (run_optimisation emptyEnv PORTFOLIO_TICKERS START_DATE "2024-06-01").2 ∧
        PipelineStep.optimizeStep
            ∉ (run_optimisation emptyEnv PORTFOLIO_TICKERS START_DATE "2024-06-01").2) :=
  ⟨rfl, run_optimisation_empty_extract emptyEnv PORTFOLIO_TICKERS START_DATE "2024-06-01" rfl⟩

/-! ## The shipped default configuration (C10) -/

/-- C10: the defaults in `src/settings.py` satisfy the allocator's
feasibility precondition: `MINIMUM_ALLOCATION = 0.05`,
`PORTFOLIO_TICKERS` has 6 entries, their product is `0.3 ≤ 1`, and hence
no run on the default universe can satisfy the contract while failing
with `InfeasibleConstraintsError`. -/
theorem default_settings_feasible :
    MINIMUM_ALLOCATION = 1 / 20 ∧
      PORTFOLIO_TICKERS.length = 6 ∧
      MINIMUM_ALLOCATION * (PORTFOLIO_TICKERS.length : ℚ) = 3 / 10 ∧
      MINIMUM_ALLOCATION * (PORTFOLIO_TICKERS.length : ℚ) ≤ 1 ∧
      ∀ (r : Weights PORTFOLIO_TICKERS.length)
        (C : Fin PORTFOLIO_TICKERS.length → Fin PORTFOLIO_TICKERS.length → ℚ)
        (res : Except OptErr (Weights PORTFOLIO_TICKERS.length)),
        OptimizeSpec r C RISK_AVERSION MINIMUM_ALLOCATION res →
          res ≠ Except.error OptErr.infeasible := by
  refine ⟨by norm_num [MINIMUM_ALLOCATION], rfl,
    by norm_num [MINIMUM_ALLOCATION, PORTFOLIO_TICKERS], by
    norm_num [MINIMUM_ALLOCATION, PORTFOLIO_TICKERS], ?_⟩
  intro r C res hspec hcon
  subst hcon
  have : (1 : ℚ) < MINIMUM_ALLOCATION * ((PORTFOLIO_TICKERS.length : ℕ) : ℚ) := hspec
  norm_num [MINIMUM_ALLOCATION, PORTFOLIO_TICKERS] at this

/-- Witness for C10: the contract admits a singular-covariance failure on
the default universe, and that result is not the infeasibility error. -/
theorem default_settings_feasible_witness :
    OptimizeSpec (fun _ => 0) (fun _ _ => 0) RISK_AVERSION MINIMUM_ALLOCATION
        (Except.error OptErr.singular : Except OptErr (Weights PORTFOLIO_TICKERS.length)) ∧
      (Except.error OptErr.singular : Except OptErr (Weights PORTFOLIO_TICKERS.length))
        ≠ Except.error OptErr.infeasible := by
  have hspec : OptimizeSpec (fun _ => 0) (fun _ _ => 0) RISK_AVERSION MINIMUM_ALLOCATION
      (Except.error OptErr.singular : Except OptErr (Weights PORTFOLIO_TICKERS.length)) := by
    show MINIMUM_ALLOCATION * ((PORTFOLIO_TICKERS.length : ℕ) : ℚ) ≤ 1
    norm_num [MINIMUM_ALLOCATION, PORTFOLIO_TICKERS]
  exact ⟨hspec, default_settings_feasible.2.2.2.2 (fun _ => 0) (fun _ _ => 0)
    (Except.error OptErr.singular) hspec⟩

end PFPFO
